import Mathlib

/-!
Verification of the memory-bank core of claude-task-master.

The Python modules `memory_bank/core.py`, `memory_bank/sections.py` and
`memory_bank/exporters.py` are shallowly embedded below.  A JSON value is the
inductive `JVal`; a Python `dict` keeping insertion order is an association
list (`setKey` updates in place or appends, like CPython dicts); a Python
exception propagating out of an operation is the `Except.error` side of the
operation's result, with the state at raise time kept (in-place mutations
performed before the raise survive, as they do on the real manager object).
-/

namespace MemoryBank

/-- A JSON value as produced by `json.load` / manipulated by the manager. -/
inductive JVal where
  | null : JVal
  | bool : Bool → JVal
  | num : Int → JVal
  | str : String → JVal
  | arr : List JVal → JVal
  | obj : List (String × JVal) → JVal

/-- A Python dict with string keys, in insertion order. -/
abbrev Doc := List (String × JVal)

/-- The markdown files on disk: file name to text content. -/
abbrev FS := List (String × String)

/-- Python `d[k]` lookup on an insertion-ordered dict. -/
def lookupKey {α : Type} : List (String × α) → String → Option α
  | [], _ => none
  | (k', v) :: rest, k => if k' = k then some v else lookupKey rest k

/-- Python `d[k] = v` on an insertion-ordered dict: replaces in place, or
appends a new binding at the end. -/
def setKey {α : Type} : List (String × α) → String → α → List (String × α)
  | [], k, v => [(k, v)]
  | (k', v') :: rest, k, v =>
      if k' = k then (k, v) :: rest else (k', v') :: setKey rest k v

/-- The Python exceptions the embedded operations can raise. -/
inductive PyErr where
  | keyError : PyErr
  | typeError : PyErr
  | attributeError : PyErr
  | unboundLocalError : PyErr
deriving DecidableEq, Repr

/-- Outcome of an operation on the manager: the in-memory document after the
call (state at raise time if an exception propagated), the returned value or
the exception, and whether the state file write in `save_memory_state`
completed. -/
structure PyResult (α : Type) where
  state : Doc
  result : Except PyErr α
  persisted : Bool

/-- The fixed section-dependency table built in `MemoryBankManager.__init__`. -/
def section_dependencies : List (String × List String) :=
  [ ("projectInfo", []),
    ("productContext", ["projectInfo"]),
    ("systemPatterns", ["projectInfo"]),
    ("standards", ["systemPatterns"]),
    ("technologies", ["projectInfo"]),
    ("tasks", ["productContext", "systemPatterns", "technologies"]),
    ("changeHistory", []) ]

/-- The default document written by `init_memory_bank` on a fresh root.
`now` stands for `datetime.datetime.now().isoformat()` and `projectName`
for `os.path.basename(self.project_root)`. -/
def initial_state (now projectName : String) : Doc :=
  [ ("metadata", JVal.obj
      [ ("created", JVal.str now),
        ("lastUpdated", JVal.str now),
        ("version", JVal.str "1.0.0") ]),
    ("projectInfo", JVal.obj
      [ ("name", JVal.str projectName),
        ("description", JVal.str ""),
        ("content", JVal.str ""),
        ("status", JVal.str "Not Started") ]),
    ("productContext", JVal.obj
      [ ("content", JVal.str ""), ("status", JVal.str "Pending") ]),
    ("systemPatterns", JVal.obj
      [ ("content", JVal.str ""), ("status", JVal.str "Pending") ]),
    ("technologies", JVal.obj
      [ ("content", JVal.str ""), ("items", JVal.arr []),
        ("status", JVal.str "Pending") ]),
    ("tasks", JVal.obj
      [ ("current", JVal.obj
          [ ("description", JVal.str ""), ("status", JVal.str "Pending"),
            ("steps", JVal.arr []), ("activeContext", JVal.str "") ]),
        ("history", JVal.arr []) ]),
    ("standards", JVal.obj
      [ ("content", JVal.str ""), ("items", JVal.arr []),
        ("status", JVal.str "Pending") ]),
    ("changeHistory", JVal.arr []) ]

/-- The three states the persisted `memory_state.json` can be in when read:
missing, present but not valid JSON (`json.load` raises `JSONDecodeError`),
or present and parsing to the JSON value `v` (any value, not necessarily the
expected structure). -/
inductive FileState where
  | absent : FileState
  | corrupt : FileState
  | parsed : JVal → FileState

/-- `MemoryBankManager.load_memory_state`, fuel-indexed.  The Python method
reads and parses the state file; on `JSONDecodeError` or `FileNotFoundError`
it calls `init_memory_bank`, which writes the default document only when the
state file does not exist and then calls `load_memory_state` again — a mutual
recursion, modelled by one step of fuel per round trip.  `none` means the
fuel ran out with the recursion still going (the Python call never returns
normally; CPython ends it with `RecursionError`). -/
def load_memory_state (fuel : Nat) (fs : FileState) (now projectName : String) :
    Option JVal :=
  match fuel, fs with
  | _, FileState.parsed v => some v
  | 0, _ => none
  | Nat.succ n, fs =>
      load_memory_state n
        (match fs with
         | FileState.absent => FileState.parsed (JVal.obj (initial_state now projectName))
         | other => other)
        now projectName

/-- `MemoryBankManager.save_memory_state`: sets `metadata.lastUpdated` to the
current time, then writes the document to the state file (after copying the
previous file aside as a backup, which does not affect the document).  The
first line indexes `self.memory_state["metadata"]` unconditionally: a missing
key raises `KeyError`, a non-dict value raises `TypeError`, and in either
case nothing is written. -/
def save_memory_state (doc : Doc) (now : String) : PyResult Unit :=
  match lookupKey doc "metadata" with
  | some (JVal.obj m) =>
      { state := setKey doc "metadata" (JVal.obj (setKey m "lastUpdated" (JVal.str now))),
        result := Except.ok (), persisted := true }
  | some _ => { state := doc, result := Except.error PyErr.typeError, persisted := false }
  | none => { state := doc, result := Except.error PyErr.keyError, persisted := false }

/-- Python truthiness of the optional `metadata` dict argument: `None` and the
empty dict are falsy. -/
def truthyMeta : Option Doc → Bool
  | none => false
  | some m => !m.isEmpty

/-- The `for key, value in metadata.items(): section[key] = value` loop of the
`projectInfo` branch of `update_section`. -/
def overlayMeta (s : Doc) (m : Doc) : Doc :=
  m.foldl (fun acc kv => setKey acc kv.1 kv.2) s

/-- The `activeContext` sub-step of the `tasks` branch of `update_section`:
`memory_state["tasks"]["current"]["activeContext"] = metadata["activeContext"]`,
run only when `metadata` is truthy and carries `activeContext`.  A non-dict
`tasks` or `tasks["current"]` raises `TypeError`; a dict `tasks` without
`"current"` raises `KeyError`. -/
def tasksActiveStep (v : JVal) (metadata : Option Doc) : JVal × Option PyErr :=
  if truthyMeta metadata && (lookupKey (metadata.getD []) "activeContext").isSome then
    match v with
    | JVal.obj t =>
        match lookupKey t "current" with
        | some (JVal.obj c) =>
            (JVal.obj (setKey t "current" (JVal.obj
              (setKey c "activeContext"
                ((lookupKey (metadata.getD []) "activeContext").getD JVal.null)))), none)
        | some _ => (v, some PyErr.typeError)
        | none => (v, some PyErr.keyError)
    | _ => (v, some PyErr.typeError)
  else (v, none)

/-- The task record appended by the `progress` sub-step of `update_section`. -/
def progressTask (metadata : Doc) (now : String) : JVal :=
  JVal.obj
    [ ("timestamp", JVal.str now),
      ("description", (lookupKey metadata "description").getD (JVal.str "Task completed")),
      ("progress", (lookupKey metadata "progress").getD JVal.null),
      ("status", JVal.str "Completed") ]

/-- The `progress` sub-step of the `tasks` branch of `update_section`:
`memory_state["tasks"]["history"].append(task)`, run only when `metadata` is
truthy and carries `progress`.  A non-dict `tasks` raises `TypeError`; a dict
without `"history"` raises `KeyError`; a `history` that is not a list raises
`AttributeError` (no `.append`). -/
def tasksProgressStep (v : JVal) (metadata : Option Doc) (now : String) :
    JVal × Option PyErr :=
  if truthyMeta metadata && (lookupKey (metadata.getD []) "progress").isSome then
    match v with
    | JVal.obj t =>
        match lookupKey t "history" with
        | some (JVal.arr h) =>
            (JVal.obj (setKey t "history"
              (JVal.arr (h ++ [progressTask (metadata.getD []) now]))), none)
        | some _ => (v, some PyErr.attributeError)
        | none => (v, some PyErr.keyError)
    | _ => (v, some PyErr.typeError)
  else (v, none)

/-- The per-section branch of `update_section` (everything before the final
status write), acting on the current value `v` of the section named `name`.
Returns the new value together with the exception, if one was raised; the
value returned on an exception is the value at raise time (partial mutations
survive).  The `projectInfo` and `technologies` branches assign
`section["content"]` without an `isinstance` guard, so a non-dict section
raises `TypeError` there; the generic branch is guarded and skips instead. -/
def updateSectionValue (v : JVal) (name : String) (content : JVal)
    (metadata : Option Doc) (now : String) : JVal × Option PyErr :=
  if name = "projectInfo" then
    match v with
    | JVal.obj s =>
        let s1 := setKey s "content" content
        let s2 := if truthyMeta metadata then overlayMeta s1 (metadata.getD []) else s1
        (JVal.obj s2, none)
    | _ => (v, some PyErr.typeError)
  else if name = "technologies" then
    match v with
    | JVal.obj s => (JVal.obj (setKey s "content" content), none)
    | _ => (v, some PyErr.typeError)
  else if name = "tasks" then
    match tasksActiveStep v metadata with
    | (v1, some e) => (v1, some e)
    | (v1, none) => tasksProgressStep v1 metadata now
  else
    match v with
    | JVal.obj s => (JVal.obj (setKey s "content" content), none)
    | _ => (v, none)

/-- The unconditional status write at the end of `update_section`: if the
section is a dict with a `status` field, set it to `"Complete"`. -/
def setStatusComplete (v : JVal) : JVal :=
  match v with
  | JVal.obj s =>
      if (lookupKey s "status").isSome
      then JVal.obj (setKey s "status" (JVal.str "Complete"))
      else JVal.obj s
  | v => v

/-- `update_section(memory_manager, section_name, content, metadata=None)`.
Returns `false` without touching anything when `name` is not a key of the
document; otherwise runs the per-section branch, the status write, and
`save_memory_state`, returning `true` when nothing raised. -/
def update_section (doc : Doc) (name : String) (content : JVal)
    (metadata : Option Doc) (now : String) : PyResult Bool :=
  match lookupKey doc name with
  | some v =>
      match updateSectionValue v name content metadata now with
      | (v1, some e) =>
          { state := setKey doc name v1, result := Except.error e, persisted := false }
      | (v1, none) =>
          let d2 := setKey doc name (setStatusComplete v1)
          let s := save_memory_state d2 now
          { state := s.state, result := s.result.map (fun _ => true),
            persisted := s.persisted }
  | none => { state := doc, result := Except.ok false, persisted := false }

/-- One dependency test inside the loop of `check_dependencies_complete`:
an absent dependency fails; a non-dict or status-less dependency is skipped;
otherwise its status must equal `"Complete"`. -/
def dependencyOk (doc : Doc) (dep : String) : Bool :=
  match lookupKey doc dep with
  | none => false
  | some (JVal.obj fields) =>
      match lookupKey fields "status" with
      | none => true
      | some (JVal.str s) => decide (s = "Complete")
      | some _ => false
  | some _ => true

/-- `check_dependencies_complete(memory_manager, section_name)`: true iff the
name is a key of the dependency table and every declared dependency passes
`dependencyOk`. -/
def check_dependencies_complete (doc : Doc) (name : String) : Bool :=
  match lookupKey section_dependencies name with
  | some deps => deps.all (dependencyOk doc)
  | none => false

/-- The per-section test of the loop in `get_ready_sections`: present as a
dict with a `status` field, status not `"Complete"`, and dependencies
complete. -/
def readyFilter (doc : Doc) (name : String) : Bool :=
  match lookupKey doc name with
  | some (JVal.obj fields) =>
      match lookupKey fields "status" with
      | some st =>
          (match st with
           | JVal.str s => decide (¬s = "Complete")
           | _ => true) && check_dependencies_complete doc name
      | none => false
  | _ => false

/-- `get_ready_sections(memory_manager)`: the dependency-table keys passing
`readyFilter`, in table (insertion) order. -/
def get_ready_sections (doc : Doc) : List String :=
  (section_dependencies.map Prod.fst).filter (readyFilter doc)

/-- The record appended by `log_change`; `details or \x7b\x7d` maps a `None`
or empty `details` to the empty dict. -/
def changeEntry (description : JVal) (details : Option Doc) (now : String) : JVal :=
  JVal.obj
    [ ("timestamp", JVal.str now),
      ("description", description),
      ("details", JVal.obj (match details with
        | some m => if m.isEmpty then [] else m
        | none => [])) ]

/-- `log_change(memory_manager, description, details=None)`: reinitializes
`changeHistory` to `[]` when absent or not a list, appends the change record,
and saves. -/
def log_change (doc : Doc) (description : JVal) (details : Option Doc)
    (now : String) : PyResult Unit :=
  let d1 :=
    match lookupKey doc "changeHistory" with
    | some (JVal.arr _) => doc
    | some _ => setKey doc "changeHistory" (JVal.arr [])
    | none => setKey doc "changeHistory" (JVal.arr [])
  let d2 :=
    match lookupKey d1 "changeHistory" with
    | some (JVal.arr h) =>
        setKey d1 "changeHistory" (JVal.arr (h ++ [changeEntry description details now]))
    | _ => d1
  save_memory_state d2 now

/-- Python `isinstance(v, dict)`. -/
def isDict : JVal → Bool
  | JVal.obj _ => true
  | _ => false

/-- The entries of `changeHistory` before a call, reading an absent or
non-list value as the empty sequence `log_change` resets it to. -/
def priorHistory (doc : Doc) : List JVal :=
  match lookupKey doc "changeHistory" with
  | some (JVal.arr h) => h
  | _ => []

/-- The section-to-filename mapping at the top of `export_markdown`. -/
def export_mapping : List (String × String) :=
  [ ("projectInfo", "projectbrief.md"),
    ("productContext", "productContext.md"),
    ("systemPatterns", "systemPatterns.md"),
    ("technologies", "techContext.md"),
    ("tasks", "activeContext.md") ]

/-- Python `str()` of a value interpolated into an f-string, modelled exactly
for scalars; containers get a fixed placeholder rendering (the operations
under verification interpolate only scalars on their specified paths). -/
def fStr : JVal → String
  | JVal.str s => s
  | JVal.num n => toString n
  | JVal.bool b => cond b "True" "False"
  | JVal.null => "None"
  | JVal.arr _ => "[...]"
  | JVal.obj _ => "\x7b...\x7d"

/-- Python `open(file, "w")` followed by `f.write(v)`: opening truncates the
file to empty; the write then succeeds only for a string value, raising
`TypeError` otherwise and leaving the file truncated. -/
def writeValue (fs : FS) (file : String) (v : JVal) : FS × Option PyErr :=
  let fs1 := setKey fs file ""
  match v with
  | JVal.str s => (setKey fs1 file s, none)
  | _ => (fs1, some PyErr.typeError)

/-- The body of `progress.md` synthesized by `export_markdown` from
`tasks["history"]`: one sub-heading plus body per dict entry carrying a
`progress` field, in history order. -/
def progressBody (t : Doc) : String :=
  match lookupKey t "history" with
  | some (JVal.arr hs) =>
      hs.foldl (fun acc task =>
        match task with
        | JVal.obj tf =>
            match lookupKey tf "progress" with
            | some p =>
                acc ++ "## " ++ fStr ((lookupKey tf "description").getD (JVal.str "Task"))
                    ++ "\n" ++ fStr p ++ "\n\n"
            | none => acc
        | _ => acc) ""
  | _ => ""

/-- The `tasks` branch of `export_markdown` (reached only when `tasks` is a
dict `t`): writes `activeContext.md` from `tasks["current"]["activeContext"]`
(file left truncated when `current` is absent or not a dict), then writes the
synthesized `progress.md`. -/
def exportTasks (t : Doc) (fs : FS) : FS × Option PyErr :=
  let step1 :=
    match lookupKey t "current" with
    | some (JVal.obj c) =>
        writeValue fs "activeContext.md" ((lookupKey c "activeContext").getD (JVal.str ""))
    | _ => (setKey fs "activeContext.md" "", none)
  match step1 with
  | (fs1, some e) => (fs1, some e)
  | (fs1, none) =>
      (setKey fs1 "progress.md" ("# Project Progress\n\n" ++ progressBody t), none)

/-- The regular-section write of `export_markdown`: `content` verbatim, or the
placeholder heading when `content` is absent. -/
def exportRegular (name filename : String) (fields : Doc) (fs : FS) :
    FS × Option PyErr :=
  match lookupKey fields "content" with
  | some c => writeValue fs filename c
  | none => (setKey fs filename ("# " ++ name ++ "\n\n*No content yet*"), none)

/-- The export-all loop of `export_markdown` (the `section_name=None` branch),
iterating the filename mapping in order and stopping at the first raised
exception. -/
def exportAllLoop (doc : Doc) (fs : FS) :
    List (String × String) → FS × Option PyErr
  | [] => (fs, none)
  | (name, filename) :: rest =>
      match lookupKey doc name with
      | some v =>
          if name = "tasks" then
            match v with
            | JVal.obj t =>
                match exportTasks t fs with
                | (fs1, some e) => (fs1, some e)
                | (fs1, none) => exportAllLoop doc fs1 rest
            | _ => exportAllLoop doc fs rest
          else
            match v with
            | JVal.obj fields =>
                match exportRegular name filename fields fs with
                | (fs1, some e) => (fs1, some e)
                | (fs1, none) => exportAllLoop doc fs1 rest
            | _ => exportAllLoop doc fs rest
      | none => exportAllLoop doc fs rest

/-- `export_markdown(memory_manager, section_name=None)`.  Files are keyed by
bare name (the constant `memory-bank` directory prefix is elided); the
returned path is the written file's name, `memory-bank` for the export-all
branch, or `none` for the branches of the Python function that return `None`.
In the single-section branch, when the name is a key of the document but the
final `return md_file` is reached without any write having assigned
`md_file`, the function raises `UnboundLocalError`. -/
def export_markdown (doc : Doc) (section_name : Option String) (fs : FS) :
    FS × Except PyErr (Option String) :=
  match section_name with
  | some name =>
      match lookupKey doc name with
      | some v =>
          if name = "tasks" ∧ isDict v then
            match v with
            | JVal.obj t =>
                match exportTasks t fs with
                | (fs1, some e) => (fs1, Except.error e)
                | (fs1, none) => (fs1, Except.ok none)
            | _ => (fs, Except.error PyErr.typeError)
          else
            match lookupKey export_mapping name, v with
            | some filename, JVal.obj fields =>
                match exportRegular name filename fields fs with
                | (fs1, some e) => (fs1, Except.error e)
                | (fs1, none) => (fs1, Except.ok (some filename))
            | _, _ => (fs, Except.error PyErr.unboundLocalError)
      | none => (fs, Except.ok none)
  | none =>
      match exportAllLoop doc fs export_mapping with
      | (fs1, some e) => (fs1, Except.error e)
      | (fs1, none) => (fs1, Except.ok (some "memory-bank"))

/-- The filename-to-section mapping at the top of `import_markdown`. -/
def import_mapping : List (String × String) :=
  [ ("projectbrief.md", "projectInfo"),
    ("productContext.md", "productContext"),
    ("systemPatterns.md", "systemPatterns"),
    ("techContext.md", "technologies"),
    ("activeContext.md", "tasks"),
    ("progress.md", "tasks") ]

/-- The path-derivation loop of `import_markdown`: the first mapping entry
whose section equals `section_name`, if any. -/
def derivePath (section_name : String) : Option String :=
  (import_mapping.find? (fun kv => kv.2 == section_name)).map (fun kv => kv.1)

/-- The write into `tasks["current"][field]` shared by the `activeContext.md`
and `progress.md` branches of `import_markdown`: succeeds only when `tasks`
is a dict whose `current` is a dict, returning `false` otherwise. -/
def importIntoCurrent (doc : Doc) (field content now : String) : PyResult Bool :=
  match lookupKey doc "tasks" with
  | some (JVal.obj t) =>
      match lookupKey t "current" with
      | some (JVal.obj c) =>
          let d1 := setKey doc "tasks" (JVal.obj
            (setKey t "current" (JVal.obj (setKey c field (JVal.str content)))))
          let s := save_memory_state d1 now
          { state := s.state, result := s.result.map (fun _ => true),
            persisted := s.persisted }
      | _ => { state := doc, result := Except.ok false, persisted := false }
  | _ => { state := doc, result := Except.ok false, persisted := false }

/-- `import_markdown(memory_manager, section_name, file_path=None)`.  The file
system read always succeeds on an existing file (the bare `except` around
`f.read` is unreachable in this model); a missing file or underivable path
returns `false`.  The special cases dispatch on the file's base name even for
an explicitly supplied path, as in the source. -/
def import_markdown (doc : Doc) (section_name : String)
    (file_path : Option String) (fs : FS) (now : String) : PyResult Bool :=
  let path := match file_path with
              | some p => some p
              | none => derivePath section_name
  match path with
  | none => { state := doc, result := Except.ok false, persisted := false }
  | some p =>
      match lookupKey fs p with
      | none => { state := doc, result := Except.ok false, persisted := false }
      | some content =>
          if p = "activeContext.md" then
            importIntoCurrent doc "activeContext" content now
          else if p = "progress.md" then
            importIntoCurrent doc "progress" content now
          else
            match lookupKey import_mapping p with
            | some sec =>
                match lookupKey doc sec with
                | some (JVal.obj s) =>
                    let d1 := setKey doc sec (JVal.obj
                      (setKey (setKey s "content" (JVal.str content))
                        "status" (JVal.str "Complete")))
                    let sv := save_memory_state d1 now
                    { state := sv.state, result := sv.result.map (fun _ => true),
                      persisted := sv.persisted }
                | _ => { state := doc, result := Except.ok false, persisted := false }
            | none => { state := doc, result := Except.ok false, persisted := false }

/-! ### Lemmas about the dict operations -/

theorem lookupKey_setKey {α : Type} (d : List (String × α)) (k k' : String) (v : α) :
    lookupKey (setKey d k v) k' = if k = k' then some v else lookupKey d k' := by
  induction d with
  | nil => by_cases h : k = k' <;> simp [setKey, lookupKey, h]
  | cons hd tl ih =>
      obtain ⟨k0, v0⟩ := hd
      by_cases h1 : k0 = k
      · subst h1
        by_cases h2 : k0 = k' <;> simp [setKey, lookupKey, h2]
      · by_cases h2 : k0 = k'
        · subst h2
          have h3 : ¬k = k0 := fun h => h1 h.symm
          simp [setKey, lookupKey, h1, h3]
        · simp [setKey, lookupKey, h1, h2, ih]

theorem lookupKey_setKey_self {α : Type} (d : List (String × α)) (k : String) (v : α) :
    lookupKey (setKey d k v) k = some v := by
  simp [lookupKey_setKey]

theorem lookupKey_setKey_ne {α : Type} (d : List (String × α)) (k k' : String) (v : α)
    (h : k ≠ k') : lookupKey (setKey d k v) k' = lookupKey d k' := by
  simp [lookupKey_setKey, h]

theorem lookupKey_setKey_isSome {α : Type} (d : List (String × α)) (k k' : String) (v : α)
    (h : (lookupKey d k').isSome) : (lookupKey (setKey d k v) k').isSome := by
  by_cases hk : k = k' <;> simp [lookupKey_setKey, hk, h]

theorem overlayMeta_isSome (m s : Doc) (k : String)
    (h : (lookupKey s k).isSome) : (lookupKey (overlayMeta s m) k).isSome := by
  induction m generalizing s with
  | nil => simpa [overlayMeta] using h
  | cons hd tl ih =>
      have hstep : overlayMeta s (hd :: tl) = overlayMeta (setKey s hd.1 hd.2) tl := rfl
      rw [hstep]
      exact ih _ (lookupKey_setKey_isSome _ _ _ _ h)

/-! ### Claim theorems -/

/-- C1: the claim says that for a persisted state that is absent or fails to
parse as the expected structure, `reload()` terminates normally and leaves the
in-memory document equal to a freshly re-initialized default document.  The
code violates this: for a state file that exists but is not valid JSON,
`load_memory_state` and `init_memory_bank` call each other forever (the
initializer rewrites the file only when it does not exist), so the reload
never terminates normally — `load_memory_state` returns `none` for every
amount of fuel.  For a file that parses to a JSON value that is not the
expected structure, the value is simply kept, with no re-initialization.  The
absent-file case alone behaves as claimed. -/
theorem c1_reload_corrupt_diverges :
    (∀ fuel now projectName,
        load_memory_state fuel FileState.corrupt now projectName = none) ∧
    (∀ fuel now projectName v,
        load_memory_state fuel (FileState.parsed v) now projectName = some v) ∧
    (∀ fuel now projectName,
        load_memory_state (fuel + 1) FileState.absent now projectName
          = some (JVal.obj (initial_state now projectName))) := by
  have hparsed : ∀ fuel now projectName v,
      load_memory_state fuel (FileState.parsed v) now projectName = some v := by
    intro fuel now projectName v
    cases fuel <;> rfl
  refine ⟨?_, hparsed, ?_⟩
  · intro fuel now projectName
    induction fuel with
    | zero => rfl
    | succ n ih => simpa [load_memory_state] using ih
  · intro fuel now projectName
    have hstep : load_memory_state (fuel + 1) FileState.absent now projectName
        = load_memory_state fuel
            (FileState.parsed (JVal.obj (initial_state now projectName))) now projectName := rfl
    rw [hstep, hparsed]

/-- C2 counterexample: the claim requires every prerequisite of a returned
section to be present *with status `"Complete"`*, but `get_ready_sections`
returns `productContext` on a document whose prerequisite `projectInfo` is
present as a plain string — not a mapping with any status at all (the
dependency check skips non-mapping prerequisites). -/
theorem c2_counterexample :
    "productContext" ∈ get_ready_sections
        [("projectInfo", JVal.str "x"),
         ("productContext", JVal.obj [("status", JVal.str "Pending")])] ∧
    lookupKey section_dependencies "productContext" = some ["projectInfo"] ∧
    ¬∃ fields, lookupKey
          [("projectInfo", JVal.str "x"),
           ("productContext", JVal.obj [("status", JVal.str "Pending")])] "projectInfo"
        = some (JVal.obj fields) ∧
      lookupKey fields "status" = some (JVal.str "Complete") := by
  refine ⟨by decide, by decide, ?_⟩
  rintro ⟨fields, hf, -⟩
  simp [lookupKey] at hf

/-- C2 (amended): every section returned by `get_ready_sections` has all of
its table-declared prerequisites present in the document, and every such
prerequisite that is a mapping with a `status` field has status `"Complete"`;
prerequisites present as non-mappings or as mappings without a `status` field
are skipped by the dependency check. -/
theorem c2_ready_sections_prereqs (doc : Doc) (s : String) (deps : List String)
    (d : String)
    (hs : s ∈ get_ready_sections doc)
    (hdeps : lookupKey section_dependencies s = some deps)
    (hd : d ∈ deps) :
    (lookupKey doc d).isSome ∧
      ∀ fields st, lookupKey doc d = some (JVal.obj fields) →
        lookupKey fields "status" = some st → st = JVal.str "Complete" := by
  have hf : readyFilter doc s = true := (List.mem_filter.mp hs).2
  have hchk : check_dependencies_complete doc s = true := by
    unfold readyFilter at hf
    split at hf
    · split at hf
      · simp only [Bool.and_eq_true] at hf
        exact hf.2
      · exact absurd hf (by simp)
    · exact absurd hf (by simp)
  have hok : dependencyOk doc d = true := by
    unfold check_dependencies_complete at hchk
    rw [hdeps] at hchk
    exact List.all_eq_true.mp hchk d hd
  unfold dependencyOk at hok
  constructor
  · cases hl : lookupKey doc d with
    | none => rw [hl] at hok; simp at hok
    | some v => simp [hl]
  · intro fields st hfield hstat
    simp only [hfield] at hok
    simp only [hstat] at hok
    cases st <;> simp_all

/-- C2 witness: on a document where `projectInfo` is Complete,
`productContext` is ready and its prerequisite is a Complete mapping. -/
theorem c2_witness :
    (lookupKey [("projectInfo", JVal.obj [("status", JVal.str "Complete")]),
        ("productContext", JVal.obj [("status", JVal.str "Pending")])]
        "projectInfo").isSome ∧
      ∀ fields st,
        lookupKey [("projectInfo", JVal.obj [("status", JVal.str "Complete")]),
            ("productContext", JVal.obj [("status", JVal.str "Pending")])]
            "projectInfo" = some (JVal.obj fields) →
        lookupKey fields "status" = some st → st = JVal.str "Complete" :=
  c2_ready_sections_prereqs _ "productContext" ["projectInfo"] "projectInfo"
    (by decide) (by decide) (by decide)

/-- Helper for C3: on a dict input, the `activeContext` sub-step of the tasks
branch always leaves a dict behind (both on success and at raise time) and
never removes a field. -/
theorem tasksActiveStep_preserves (fields : Doc) (metadata : Option Doc) :
    ∃ fields', (tasksActiveStep (JVal.obj fields) metadata).1 = JVal.obj fields' ∧
      ∀ k, (lookupKey fields k).isSome → (lookupKey fields' k).isSome := by
  by_cases hc : (truthyMeta metadata
      && (lookupKey (metadata.getD []) "activeContext").isSome) = true
  · cases hcur : lookupKey fields "current" with
    | none =>
        have he : tasksActiveStep (JVal.obj fields) metadata
            = (JVal.obj fields, some PyErr.keyError) := by
          simp [tasksActiveStep, hc, hcur]
        exact ⟨fields, by rw [he], fun k hk => hk⟩
    | some c =>
        cases c with
        | obj cf =>
            have he : tasksActiveStep (JVal.obj fields) metadata
                = (JVal.obj (setKey fields "current" (JVal.obj (setKey cf "activeContext"
                    ((lookupKey (metadata.getD []) "activeContext").getD JVal.null)))),
                   none) := by
              simp [tasksActiveStep, hc, hcur]
            exact ⟨_, by rw [he], fun k hk => lookupKey_setKey_isSome _ _ _ _ hk⟩
        | null =>
            have he : tasksActiveStep (JVal.obj fields) metadata
                = (JVal.obj fields, some PyErr.typeError) := by
              simp [tasksActiveStep, hc, hcur]
            exact ⟨fields, by rw [he], fun k hk => hk⟩
        | bool b =>
            have he : tasksActiveStep (JVal.obj fields) metadata
                = (JVal.obj fields, some PyErr.typeError) := by
              simp [tasksActiveStep, hc, hcur]
            exact ⟨fields, by rw [he], fun k hk => hk⟩
        | num n =>
            have he : tasksActiveStep (JVal.obj fields) metadata
                = (JVal.obj fields, some PyErr.typeError) := by
              simp [tasksActiveStep, hc, hcur]
            exact ⟨fields, by rw [he], fun k hk => hk⟩
        | str s =>
            have he : tasksActiveStep (JVal.obj fields) metadata
                = (JVal.obj fields, some PyErr.typeError) := by
              simp [tasksActiveStep, hc, hcur]
            exact ⟨fields, by rw [he], fun k hk => hk⟩
        | arr l =>
            have he : tasksActiveStep (JVal.obj fields) metadata
                = (JVal.obj fields, some PyErr.typeError) := by
              simp [tasksActiveStep, hc, hcur]
            exact ⟨fields, by rw [he], fun k hk => hk⟩
  · have he : tasksActiveStep (JVal.obj fields) metadata = (JVal.obj fields, none) := by
      simp [tasksActiveStep, hc]
    exact ⟨fields, by rw [he], fun k hk => hk⟩

/-- Helper for C3: the same for the `progress` sub-step. -/
theorem tasksProgressStep_preserves (fields : Doc) (metadata : Option Doc)
    (now : String) :
    ∃ fields', (tasksProgressStep (JVal.obj fields) metadata now).1 = JVal.obj fields' ∧
      ∀ k, (lookupKey fields k).isSome → (lookupKey fields' k).isSome := by
  by_cases hc : (truthyMeta metadata
      && (lookupKey (metadata.getD []) "progress").isSome) = true
  · cases hcur : lookupKey fields "history" with
    | none =>
        have he : tasksProgressStep (JVal.obj fields) metadata now
            = (JVal.obj fields, some PyErr.keyError) := by
          simp [tasksProgressStep, hc, hcur]
        exact ⟨fields, by rw [he], fun k hk => hk⟩
    | some c =>
        cases c with
        | arr l =>
            have he : tasksProgressStep (JVal.obj fields) metadata now
                = (JVal.obj (setKey fields "history"
                    (JVal.arr (l ++ [progressTask (metadata.getD []) now]))), none) := by
              simp [tasksProgressStep, hc, hcur]
            exact ⟨_, by rw [he], fun k hk => lookupKey_setKey_isSome _ _ _ _ hk⟩
        | null =>
            have he : tasksProgressStep (JVal.obj fields) metadata now
                = (JVal.obj fields, some PyErr.attributeError) := by
              simp [tasksProgressStep, hc, hcur]
            exact ⟨fields, by rw [he], fun k hk => hk⟩
        | bool b =>
            have he : tasksProgressStep (JVal.obj fields) metadata now
                = (JVal.obj fields, some PyErr.attributeError) := by
              simp [tasksProgressStep, hc, hcur]
            exact ⟨fields, by rw [he], fun k hk => hk⟩
        | num n =>
            have he : tasksProgressStep (JVal.obj fields) metadata now
                = (JVal.obj fields, some PyErr.attributeError) := by
              simp [tasksProgressStep, hc, hcur]
            exact ⟨fields, by rw [he], fun k hk => hk⟩
        | str s =>
            have he : tasksProgressStep (JVal.obj fields) metadata now
                = (JVal.obj fields, some PyErr.attributeError) := by
              simp [tasksProgressStep, hc, hcur]
            exact ⟨fields, by rw [he], fun k hk => hk⟩
        | obj o =>
            have he : tasksProgressStep (JVal.obj fields) metadata now
                = (JVal.obj fields, some PyErr.attributeError) := by
              simp [tasksProgressStep, hc, hcur]
            exact ⟨fields, by rw [he], fun k hk => hk⟩
  · have he : tasksProgressStep (JVal.obj fields) metadata now
        = (JVal.obj fields, none) := by
      simp [tasksProgressStep, hc]
    exact ⟨fields, by rw [he], fun k hk => hk⟩

/-- Helper for C3: on a dict section, every branch of `update_section` leaves a
dict behind (on success and at raise time) and never removes a field. -/
theorem updateSectionValue_obj_preserves (fields : Doc) (name : String)
    (content : JVal) (metadata : Option Doc) (now : String) :
    ∃ fields',
      (updateSectionValue (JVal.obj fields) name content metadata now).1
        = JVal.obj fields' ∧
      ∀ k, (lookupKey fields k).isSome → (lookupKey fields' k).isSome := by
  by_cases h1 : name = "projectInfo"
  · have he : updateSectionValue (JVal.obj fields) name content metadata now
        = (JVal.obj (if truthyMeta metadata = true
            then overlayMeta (setKey fields "content" content) (metadata.getD [])
            else setKey fields "content" content), none) := by
      simp [updateSectionValue, h1]
    refine ⟨_, by rw [he], fun k hk => ?_⟩
    by_cases hm : truthyMeta metadata = true
    · rw [if_pos hm]
      exact overlayMeta_isSome _ _ _ (lookupKey_setKey_isSome _ _ _ _ hk)
    · rw [if_neg hm]
      exact lookupKey_setKey_isSome _ _ _ _ hk
  · by_cases h2 : name = "technologies"
    · have he : updateSectionValue (JVal.obj fields) name content metadata now
          = (JVal.obj (setKey fields "content" content), none) := by
        simp [updateSectionValue, h1, h2]
      exact ⟨_, by rw [he], fun k hk => lookupKey_setKey_isSome _ _ _ _ hk⟩
    · by_cases h3 : name = "tasks"
      · obtain ⟨f1, hf1, hp1⟩ := tasksActiveStep_preserves fields metadata
        rcases he1 : tasksActiveStep (JVal.obj fields) metadata with ⟨v1, e1⟩
        rw [he1] at hf1
        have hv1 : v1 = JVal.obj f1 := hf1
        cases e1 with
        | some e =>
            have he : updateSectionValue (JVal.obj fields) name content metadata now
                = (v1, some e) := by
              simp [updateSectionValue, h1, h2, h3, he1]
            exact ⟨f1, by rw [he]; exact hv1, hp1⟩
        | none =>
            obtain ⟨f2, hf2, hp2⟩ := tasksProgressStep_preserves f1 metadata now
            have he : updateSectionValue (JVal.obj fields) name content metadata now
                = tasksProgressStep v1 metadata now := by
              simp [updateSectionValue, h1, h2, h3, he1]
            refine ⟨f2, ?_, fun k hk => hp2 k (hp1 k hk)⟩
            rw [he, hv1]
            exact hf2
      · have he : updateSectionValue (JVal.obj fields) name content metadata now
            = (JVal.obj (setKey fields "content" content), none) := by
          simp [updateSectionValue, h1, h2, h3]
        exact ⟨_, by rw [he], fun k hk => lookupKey_setKey_isSome _ _ _ _ hk⟩

/-- C3 counterexample: `tasks` is a mapping containing a `status` key, yet
`update_section` with metadata carrying `activeContext` raises `KeyError`
(the mapping has no `current` field), returns nothing, and leaves the status
at `"Pending"` — the claim promised status `"Complete"` and a `true` return
for every such section. -/
theorem c3_counterexample :
    (update_section
        [("metadata", JVal.obj []), ("tasks", JVal.obj [("status", JVal.str "Pending")])]
        "tasks" (JVal.str "c") (some [("activeContext", JVal.str "x")]) "t").result
      = Except.error PyErr.keyError ∧
    lookupKey (update_section
        [("metadata", JVal.obj []), ("tasks", JVal.obj [("status", JVal.str "Pending")])]
        "tasks" (JVal.str "c") (some [("activeContext", JVal.str "x")]) "t").state "tasks"
      = some (JVal.obj [("status", JVal.str "Pending")]) :=
  ⟨rfl, rfl⟩

/-- C3 (amended): for every section whose value is a mapping containing a
`status` key, whenever `update_section` completes without raising it returns
`true` and leaves the section's status equal to `"Complete"`, regardless of
the prior value.  (The unamended claim fails only on the raising paths: the
tasks sub-steps on a malformed `tasks` mapping, and `save_memory_state` on a
document without a `metadata` mapping.) -/
theorem c3_update_sets_status_complete (doc : Doc) (name : String) (content : JVal)
    (metadata : Option Doc) (now : String) (fields : Doc) (b : Bool)
    (hsec : lookupKey doc name = some (JVal.obj fields))
    (hstat : (lookupKey fields "status").isSome)
    (hb : (update_section doc name content metadata now).result = Except.ok b) :
    b = true ∧
      ∃ fields', lookupKey (update_section doc name content metadata now).state name
          = some (JVal.obj fields') ∧
        lookupKey fields' "status" = some (JVal.str "Complete") := by
  obtain ⟨f1, hf1, hp1⟩ := updateSectionValue_obj_preserves fields name content metadata now
  rcases hv : updateSectionValue (JVal.obj fields) name content metadata now with ⟨v1, e1⟩
  rw [hv] at hf1
  simp only at hf1
  subst hf1
  cases e1 with
  | some e =>
      simp only [update_section, hsec, hv] at hb
      cases hb
  | none =>
      have hs1 : (lookupKey f1 "status").isSome := hp1 _ hstat
      have hset : setStatusComplete (JVal.obj f1)
          = JVal.obj (setKey f1 "status" (JVal.str "Complete")) := by
        simp [setStatusComplete, hs1]
      simp only [update_section, hsec, hv, hset] at hb ⊢
      cases hmet : lookupKey (setKey doc name
          (JVal.obj (setKey f1 "status" (JVal.str "Complete")))) "metadata" with
      | none => simp [save_memory_state, hmet, Except.map] at hb
      | some mv =>
          cases mv
          case obj m =>
            simp only [save_memory_state, hmet] at hb ⊢
            simp only [Except.map] at hb
            injection hb with hb'
            refine ⟨hb'.symm, ?_⟩
            by_cases hnm : name = "metadata"
            · subst hnm
              have hd2 : lookupKey (setKey doc "metadata"
                  (JVal.obj (setKey f1 "status" (JVal.str "Complete")))) "metadata"
                  = some (JVal.obj (setKey f1 "status" (JVal.str "Complete"))) :=
                lookupKey_setKey_self _ _ _
              rw [hd2] at hmet
              have hm2 : m = setKey f1 "status" (JVal.str "Complete") := by
                simpa using hmet.symm
              refine ⟨setKey m "lastUpdated" (JVal.str now),
                lookupKey_setKey_self _ _ _, ?_⟩
              rw [lookupKey_setKey_ne _ _ _ _ (by decide), hm2,
                lookupKey_setKey_self]
            · refine ⟨setKey f1 "status" (JVal.str "Complete"), ?_,
                lookupKey_setKey_self _ _ _⟩
              rw [lookupKey_setKey_ne _ _ _ _ (fun h => hnm h.symm),
                lookupKey_setKey_self]
          all_goals simp [save_memory_state, hmet, Except.map] at hb

/-- C3 witness: updating `productContext` on the default document completes,
returns `true`, and leaves its status `"Complete"`. -/
theorem c3_witness :
    true = true ∧
      ∃ fields', lookupKey (update_section (initial_state "t" "p") "productContext"
          (JVal.str "x") none "t2").state "productContext" = some (JVal.obj fields') ∧
        lookupKey fields' "status" = some (JVal.str "Complete") :=
  c3_update_sets_status_complete _ _ _ _ _ _ true rfl rfl rfl

/-- C4: on the default document produced on a fresh root, `get_ready_sections`
returns exactly `["projectInfo"]`, whatever the creation timestamp and project
name are. -/
theorem c4_fresh_ready_sections (now projectName : String) :
    get_ready_sections (initial_state now projectName) = ["projectInfo"] := rfl

/-- C5: `update_section` on a name that is not a key of the document returns
`false`, leaves the document unchanged, raises nothing, and persists
nothing. -/
theorem c5_unknown_section_noop (doc : Doc) (name : String) (content : JVal)
    (metadata : Option Doc) (now : String)
    (h : lookupKey doc name = none) :
    update_section doc name content metadata now
      = { state := doc, result := Except.ok false, persisted := false } := by
  simp [update_section, h]

/-- C5 witness: a concrete unknown-section update. -/
theorem c5_witness :
    update_section [("metadata", JVal.obj []), ("projectInfo", JVal.obj [])]
        "doesNotExist" (JVal.str "c") none "t"
      = { state := [("metadata", JVal.obj []), ("projectInfo", JVal.obj [])],
          result := Except.ok false, persisted := false } :=
  c5_unknown_section_noop _ _ _ _ _ rfl

/-- C9: `export_markdown` on a section name that is a key of the document but
has no entry in the filename mapping reaches `return md_file` with the local
variable never assigned, raising `UnboundLocalError` — it neither returns a
path nor fails cleanly, and writes nothing. -/
theorem c9_unmapped_section_unbound (doc : Doc) (name : String) (fs : FS)
    (hin : (lookupKey doc name).isSome)
    (hmap : lookupKey export_mapping name = none) :
    export_markdown doc (some name) fs = (fs, Except.error PyErr.unboundLocalError) := by
  obtain ⟨v, hv⟩ := Option.isSome_iff_exists.mp hin
  have hnt : ¬(name = "tasks" ∧ isDict v) := by
    rintro ⟨rfl, -⟩
    simp [export_mapping, lookupKey] at hmap
  simp only [export_markdown, hv, hmap, if_neg hnt]

/-- C9 witness: the document key `standards` has no filename mapping. -/
theorem c9_witness :
    export_markdown [("standards", JVal.obj [])] (some "standards") []
      = ([], Except.error PyErr.unboundLocalError) :=
  c9_unmapped_section_unbound _ _ _ (by decide) (by decide)

/-- C6 counterexample: a malformed (non-mapping) `projectInfo` does not
degrade to a no-op — `update_section` assigns `section["content"]` without a
guard in that branch and raises `TypeError`, so the call neither completes
nor returns `true`. -/
theorem c6_counterexample :
    (update_section [("metadata", JVal.obj []), ("projectInfo", JVal.str "oops")]
        "projectInfo" (JVal.str "x") none "t").result
      = Except.error PyErr.typeError ∧
    (update_section [("metadata", JVal.obj []), ("projectInfo", JVal.str "oops")]
        "projectInfo" (JVal.str "x") none "t").state
      = [("metadata", JVal.obj []), ("projectInfo", JVal.str "oops")] :=
  ⟨rfl, rfl⟩

/-- C6 (amended): only for sections handled by the generic branch (names other
than `projectInfo`, `technologies` and `tasks`) does a malformed non-mapping
value degrade to a no-op: no content write, no status write, the call
completes without raising and returns `true` (assuming persistence succeeds,
i.e. the document has a `metadata` mapping).  The special-cased sections
raise instead. -/
theorem c6_generic_malformed_degrades (doc : Doc) (name : String) (content : JVal)
    (metadata : Option Doc) (now : String) (v : JVal) (m : Doc)
    (hv : lookupKey doc name = some v)
    (hnd : isDict v = false)
    (h1 : name ≠ "projectInfo") (h2 : name ≠ "technologies") (h3 : name ≠ "tasks")
    (hm : lookupKey doc "metadata" = some (JVal.obj m)) :
    (update_section doc name content metadata now).result = Except.ok true ∧
    (update_section doc name content metadata now).persisted = true ∧
    lookupKey (update_section doc name content metadata now).state name = some v := by
  have hnm : name ≠ "metadata" := by
    intro h
    rw [h, hm] at hv
    injection hv with h4
    rw [← h4] at hnd
    simp [isDict] at hnd
  have hev : updateSectionValue v name content metadata now = (v, none) := by
    cases v with
    | obj o => exact absurd hnd (by simp [isDict])
    | null => simp [updateSectionValue, h1, h2, h3]
    | bool b => simp [updateSectionValue, h1, h2, h3]
    | num n => simp [updateSectionValue, h1, h2, h3]
    | str s => simp [updateSectionValue, h1, h2, h3]
    | arr l => simp [updateSectionValue, h1, h2, h3]
  have hss : setStatusComplete v = v := by
    cases v with
    | obj o => exact absurd hnd (by simp [isDict])
    | null => rfl
    | bool b => rfl
    | num n => rfl
    | str s => rfl
    | arr l => rfl
  have hmd2 : lookupKey (setKey doc name v) "metadata" = some (JVal.obj m) := by
    rw [lookupKey_setKey_ne _ _ _ _ hnm, hm]
  have hsave : save_memory_state (setKey doc name v) now
      = { state := setKey (setKey doc name v) "metadata"
            (JVal.obj (setKey m "lastUpdated" (JVal.str now))),
          result := Except.ok (), persisted := true } := by
    simp [save_memory_state, hmd2]
  refine ⟨?_, ?_, ?_⟩
  · simp only [update_section, hv, hev, hss, hsave, Except.map]
  · simp only [update_section, hv, hev, hss, hsave]
  · simp only [update_section, hv, hev, hss, hsave]
    rw [lookupKey_setKey_ne _ _ _ _ (fun h => hnm h.symm), lookupKey_setKey_self]

/-- C6 witness: `standards` holding a plain string is skipped, the call
completes, persists, and returns `true`. -/
theorem c6_witness :
    (update_section [("metadata", JVal.obj []), ("standards", JVal.str "oops")]
        "standards" (JVal.str "x") none "t").result = Except.ok true ∧
    (update_section [("metadata", JVal.obj []), ("standards", JVal.str "oops")]
        "standards" (JVal.str "x") none "t").persisted = true ∧
    lookupKey (update_section [("metadata", JVal.obj []), ("standards", JVal.str "oops")]
        "standards" (JVal.str "x") none "t").state "standards"
      = some (JVal.str "oops") :=
  c6_generic_malformed_degrades _ _ _ _ _ _ _ rfl rfl (by decide) (by decide)
    (by decide) rfl

/-- C7 counterexample: on a document without a `metadata` mapping,
`log_change` raises `KeyError` from `save_memory_state` and the document is
not persisted, against the claim that every call always persists. -/
theorem c7_counterexample :
    (log_change [("changeHistory", JVal.arr [])] (JVal.str "d") none "t").result
      = Except.error PyErr.keyError ∧
    (log_change [("changeHistory", JVal.arr [])] (JVal.str "d") none "t").persisted
      = false :=
  ⟨rfl, rfl⟩

/-- Helper for C7: outcome of `log_change` once the pre-append document `d1`
and the prior history are identified. -/
theorem log_change_shape (doc d1 : Doc) (description : JVal) (details : Option Doc)
    (now : String) (m : Doc) (H : List JVal)
    (hm1 : lookupKey d1 "metadata" = some (JVal.obj m))
    (hstep : log_change doc description details now
        = save_memory_state (setKey d1 "changeHistory"
            (JVal.arr (H ++ [changeEntry description details now]))) now)
    (hH : H = priorHistory doc) :
    (log_change doc description details now).result = Except.ok () ∧
    (log_change doc description details now).persisted = true ∧
    lookupKey (log_change doc description details now).state "changeHistory"
      = some (JVal.arr (priorHistory doc ++ [changeEntry description details now])) := by
  have hmd : lookupKey (setKey d1 "changeHistory"
      (JVal.arr (H ++ [changeEntry description details now]))) "metadata"
      = some (JVal.obj m) := by
    rw [lookupKey_setKey_ne _ _ _ _ (by decide), hm1]
  have hsave : save_memory_state (setKey d1 "changeHistory"
      (JVal.arr (H ++ [changeEntry description details now]))) now
      = { state := setKey (setKey d1 "changeHistory"
            (JVal.arr (H ++ [changeEntry description details now]))) "metadata"
            (JVal.obj (setKey m "lastUpdated" (JVal.str now))),
          result := Except.ok (), persisted := true } := by
    simp [save_memory_state, hmd]
  refine ⟨by rw [hstep, hsave], by rw [hstep, hsave], ?_⟩
  rw [hstep, hsave]
  show lookupKey (setKey _ "metadata" _) "changeHistory" = _
  rw [lookupKey_setKey_ne _ _ _ _ (by decide), lookupKey_setKey_self, hH]

/-- C7 (amended): provided the document carries a `metadata` mapping (so that
persistence can run), every `log_change` call appends exactly one entry
`{timestamp, description, details or empty mapping}` to `changeHistory`
(first reset to the empty sequence when absent or not a sequence), leaves all
prior entries unchanged, and persists.  Without a `metadata` mapping the call
raises instead of persisting. -/
theorem c7_log_change_appends (doc : Doc) (description : JVal) (details : Option Doc)
    (now : String) (m : Doc)
    (hm : lookupKey doc "metadata" = some (JVal.obj m)) :
    (log_change doc description details now).result = Except.ok () ∧
    (log_change doc description details now).persisted = true ∧
    lookupKey (log_change doc description details now).state "changeHistory"
      = some (JVal.arr (priorHistory doc ++ [changeEntry description details now])) := by
  cases hch : lookupKey doc "changeHistory" with
  | none =>
      exact log_change_shape doc (setKey doc "changeHistory" (JVal.arr [])) description details now m []
        (by rw [lookupKey_setKey_ne _ _ _ _ (by decide), hm])
        (by simp only [log_change, hch, lookupKey_setKey_self, List.nil_append])
        (by simp [priorHistory, hch])
  | some v =>
      cases v with
      | arr h =>
          exact log_change_shape doc doc description details now m h hm
            (by simp only [log_change, hch]) (by simp [priorHistory, hch])
      | null =>
          exact log_change_shape doc (setKey doc "changeHistory" (JVal.arr [])) description details now m []
            (by rw [lookupKey_setKey_ne _ _ _ _ (by decide), hm])
            (by simp only [log_change, hch, lookupKey_setKey_self, List.nil_append])
            (by simp [priorHistory, hch])
      | bool b =>
          exact log_change_shape doc (setKey doc "changeHistory" (JVal.arr [])) description details now m []
            (by rw [lookupKey_setKey_ne _ _ _ _ (by decide), hm])
            (by simp only [log_change, hch, lookupKey_setKey_self, List.nil_append])
            (by simp [priorHistory, hch])
      | num n =>
          exact log_change_shape doc (setKey doc "changeHistory" (JVal.arr [])) description details now m []
            (by rw [lookupKey_setKey_ne _ _ _ _ (by decide), hm])
            (by simp only [log_change, hch, lookupKey_setKey_self, List.nil_append])
            (by simp [priorHistory, hch])
      | str s =>
          exact log_change_shape doc (setKey doc "changeHistory" (JVal.arr [])) description details now m []
            (by rw [lookupKey_setKey_ne _ _ _ _ (by decide), hm])
            (by simp only [log_change, hch, lookupKey_setKey_self, List.nil_append])
            (by simp [priorHistory, hch])
      | obj o =>
          exact log_change_shape doc (setKey doc "changeHistory" (JVal.arr [])) description details now m []
            (by rw [lookupKey_setKey_ne _ _ _ _ (by decide), hm])
            (by simp only [log_change, hch, lookupKey_setKey_self, List.nil_append])
            (by simp [priorHistory, hch])

/-- C7 witness: `log_change` on the default document appends one entry and
persists. -/
theorem c7_witness :
    (log_change (initial_state "t" "p") (JVal.str "d") none "t2").result
      = Except.ok () ∧
    (log_change (initial_state "t" "p") (JVal.str "d") none "t2").persisted = true ∧
    lookupKey (log_change (initial_state "t" "p") (JVal.str "d") none "t2").state
        "changeHistory"
      = some (JVal.arr (priorHistory (initial_state "t" "p")
          ++ [changeEntry (JVal.str "d") none "t2"])) :=
  c7_log_change_appends _ _ _ _ _ rfl

/-- C8 counterexample: with a non-string `content` (the JSON number 42),
`export_markdown` truncates `projectbrief.md` and then raises `TypeError`
(`f.write` requires a string), leaving the file empty; the subsequent import
reads the empty file and replaces `content` with the empty string, so the
round trip does not restore `content`. -/
theorem c8_counterexample :
    lookupKey (import_markdown
        [("metadata", JVal.obj []),
         ("projectInfo", JVal.obj [("content", JVal.num 42),
            ("status", JVal.str "Pending")])]
        "projectInfo" none
        (export_markdown
          [("metadata", JVal.obj []),
           ("projectInfo", JVal.obj [("content", JVal.num 42),
              ("status", JVal.str "Pending")])]
          (some "projectInfo") []).1 "t").state "projectInfo"
      = some (JVal.obj [("content", JVal.str ""), ("status", JVal.str "Complete")]) ∧
    lookupKey [("metadata", JVal.obj []),
        ("projectInfo", JVal.obj [("content", JVal.num 42),
           ("status", JVal.str "Pending")])] "projectInfo"
      = some (JVal.obj [("content", JVal.num 42), ("status", JVal.str "Pending")]) ∧
    JVal.str "" ≠ JVal.num 42 :=
  ⟨rfl, rfl, fun h => JVal.noConfusion h⟩

/-- C8 (amended): for every document in which `projectInfo` is a mapping whose
`content` field is a *string*, exporting `projectInfo` and then importing
`projectbrief.md` leaves the in-memory `content` equal to the original string
(the export writes the string verbatim and the import reads it back); for
non-string content the export raises before writing. -/
theorem c8_markdown_roundtrip (doc : Doc) (fs : FS) (now s : String) (pf : Doc)
    (hp : lookupKey doc "projectInfo" = some (JVal.obj pf))
    (hc : lookupKey pf "content" = some (JVal.str s)) :
    ∃ pf', lookupKey (import_markdown doc "projectInfo" none
          (export_markdown doc (some "projectInfo") fs).1 now).state "projectInfo"
        = some (JVal.obj pf') ∧
      lookupKey pf' "content" = some (JVal.str s) := by
  have hexp : (export_markdown doc (some "projectInfo") fs).1
      = setKey (setKey fs "projectbrief.md" "") "projectbrief.md" s := by
    simp [export_markdown, hp, exportRegular, hc, writeValue, export_mapping, lookupKey]
  have himp : import_markdown doc "projectInfo" none
      (export_markdown doc (some "projectInfo") fs).1 now
      = { state := (save_memory_state (setKey doc "projectInfo"
            (JVal.obj (setKey (setKey pf "content" (JVal.str s)) "status"
              (JVal.str "Complete")))) now).state,
          result := (save_memory_state (setKey doc "projectInfo"
            (JVal.obj (setKey (setKey pf "content" (JVal.str s)) "status"
              (JVal.str "Complete")))) now).result.map (fun _ => true),
          persisted := (save_memory_state (setKey doc "projectInfo"
            (JVal.obj (setKey (setKey pf "content" (JVal.str s)) "status"
              (JVal.str "Complete")))) now).persisted } := by
    rw [hexp]
    simp [import_markdown, derivePath, import_mapping, List.find?,
      lookupKey_setKey_self, hp, lookupKey]
  rw [himp]
  have hcon : lookupKey (setKey (setKey pf "content" (JVal.str s)) "status"
      (JVal.str "Complete")) "content" = some (JVal.str s) := by
    simp [lookupKey_setKey]
  cases hvm : lookupKey (setKey doc "projectInfo"
      (JVal.obj (setKey (setKey pf "content" (JVal.str s)) "status"
        (JVal.str "Complete")))) "metadata" with
  | none =>
      refine ⟨_, ?_, hcon⟩
      simp [save_memory_state, hvm, lookupKey_setKey]
  | some mv =>
      cases mv with
      | obj m =>
          refine ⟨_, ?_, hcon⟩
          simp [save_memory_state, hvm, lookupKey_setKey]
      | null =>
          refine ⟨_, ?_, hcon⟩
          simp [save_memory_state, hvm, lookupKey_setKey]
      | bool b =>
          refine ⟨_, ?_, hcon⟩
          simp [save_memory_state, hvm, lookupKey_setKey]
      | num n =>
          refine ⟨_, ?_, hcon⟩
          simp [save_memory_state, hvm, lookupKey_setKey]
      | str st =>
          refine ⟨_, ?_, hcon⟩
          simp [save_memory_state, hvm, lookupKey_setKey]
      | arr l =>
          refine ⟨_, ?_, hcon⟩
          simp [save_memory_state, hvm, lookupKey_setKey]

/-- C8 witness: a concrete string round trip through `projectbrief.md`. -/
theorem c8_witness :
    ∃ pf', lookupKey (import_markdown
        [("metadata", JVal.obj []),
         ("projectInfo", JVal.obj [("content", JVal.str "hello"),
            ("status", JVal.str "Pending")])]
        "projectInfo" none
        (export_markdown
          [("metadata", JVal.obj []),
           ("projectInfo", JVal.obj [("content", JVal.str "hello"),
              ("status", JVal.str "Pending")])]
          (some "projectInfo") []).1 "t").state "projectInfo"
        = some (JVal.obj pf') ∧
      lookupKey pf' "content" = some (JVal.str "hello") :=
  c8_markdown_roundtrip _ _ _ _ _ rfl rfl

/-- Helper for C10: `save_memory_state` on a document without a `metadata`
key raises `KeyError` and writes nothing. -/
theorem save_no_metadata (d : Doc) (now : String)
    (h : lookupKey d "metadata" = none) :
    save_memory_state d now
      = { state := d, result := Except.error PyErr.keyError, persisted := false } := by
  simp [save_memory_state, h]

/-- Helper for C10: on a document without a `metadata` key, the
`tasks.current` import write never returns `true` and never persists —
either an early shape check fails (clean `false`), or the save raises. -/
theorem importIntoCurrent_no_metadata (doc : Doc) (field content now : String)
    (hm : lookupKey doc "metadata" = none) :
    (importIntoCurrent doc field content now).result ≠ Except.ok true ∧
    (importIntoCurrent doc field content now).persisted = false := by
  cases ht : lookupKey doc "tasks" with
  | none =>
      exact ⟨by simp [importIntoCurrent, ht], by simp [importIntoCurrent, ht]⟩
  | some tv =>
      cases tv with
      | obj t =>
          cases hc : lookupKey t "current" with
          | none =>
              exact ⟨by simp [importIntoCurrent, ht, hc],
                by simp [importIntoCurrent, ht, hc]⟩
          | some cv =>
              cases cv with
              | obj c =>
                  have hd1 : lookupKey (setKey doc "tasks" (JVal.obj (setKey t "current"
                      (JVal.obj (setKey c field (JVal.str content)))))) "metadata"
                      = none := by
                    rw [lookupKey_setKey_ne _ _ _ _ (by decide), hm]
                  exact ⟨by simp [importIntoCurrent, ht, hc,
                      save_no_metadata _ _ hd1, Except.map],
                    by simp [importIntoCurrent, ht, hc, save_no_metadata _ _ hd1]⟩
              | null =>
                  exact ⟨by simp [importIntoCurrent, ht, hc],
                    by simp [importIntoCurrent, ht, hc]⟩
              | bool b =>
                  exact ⟨by simp [importIntoCurrent, ht, hc],
                    by simp [importIntoCurrent, ht, hc]⟩
              | num n =>
                  exact ⟨by simp [importIntoCurrent, ht, hc],
                    by simp [importIntoCurrent, ht, hc]⟩
              | str s =>
                  exact ⟨by simp [importIntoCurrent, ht, hc],
                    by simp [importIntoCurrent, ht, hc]⟩
              | arr l =>
                  exact ⟨by simp [importIntoCurrent, ht, hc],
                    by simp [importIntoCurrent, ht, hc]⟩
      | null => exact ⟨by simp [importIntoCurrent, ht], by simp [importIntoCurrent, ht]⟩
      | bool b => exact ⟨by simp [importIntoCurrent, ht], by simp [importIntoCurrent, ht]⟩
      | num n => exact ⟨by simp [importIntoCurrent, ht], by simp [importIntoCurrent, ht]⟩
      | str s => exact ⟨by simp [importIntoCurrent, ht], by simp [importIntoCurrent, ht]⟩
      | arr l => exact ⟨by simp [importIntoCurrent, ht], by simp [importIntoCurrent, ht]⟩

/-- C10 counterexample: on a document lacking `metadata`, `update_section`
with an unknown section name returns a clean `false` without persisting and
without raising any error — so it is not the case that each of these
operations raises a key error on such documents. -/
theorem c10_counterexample :
    lookupKey [("projectInfo", JVal.obj [("content", JVal.str "")])] "metadata"
      = none ∧
    update_section [("projectInfo", JVal.obj [("content", JVal.str "")])]
        "doesNotExist" (JVal.str "c") none "t"
      = { state := [("projectInfo", JVal.obj [("content", JVal.str "")])],
          result := Except.ok false, persisted := false } :=
  ⟨rfl, rfl⟩

/-- C10 (amended): `save_memory_state` unconditionally indexes the document's
`metadata` mapping, so on a document without a `metadata` key: `log_change`
always raises `KeyError`; `update_section` and `import_markdown` never return
`true` (every path that reaches the save raises, the remaining paths fail
their existence gates and return `false`); and none of the three ever
persists. -/
theorem c10_no_metadata_raises (doc : Doc)
    (hm : lookupKey doc "metadata" = none) :
    (∀ description details now,
        (log_change doc description details now).result
            = Except.error PyErr.keyError ∧
        (log_change doc description details now).persisted = false) ∧
    (∀ name content metadata now,
        (update_section doc name content metadata now).result ≠ Except.ok true ∧
        (update_section doc name content metadata now).persisted = false) ∧
    (∀ section_name file_path fs now,
        (import_markdown doc section_name file_path fs now).result
            ≠ Except.ok true ∧
        (import_markdown doc section_name file_path fs now).persisted = false) := by
  refine ⟨?_, ?_, ?_⟩
  · intro description details now
    obtain ⟨d2, hstep, hd2⟩ : ∃ d2, log_change doc description details now
        = save_memory_state d2 now ∧ lookupKey d2 "metadata" = none := by
      cases hch : lookupKey doc "changeHistory" with
      | none =>
          refine ⟨setKey (setKey doc "changeHistory" (JVal.arr [])) "changeHistory"
              (JVal.arr [changeEntry description details now]), ?_, ?_⟩
          · simp only [log_change, hch, lookupKey_setKey_self, List.nil_append]
          · rw [lookupKey_setKey_ne _ _ _ _ (by decide),
                lookupKey_setKey_ne _ _ _ _ (by decide), hm]
      | some v =>
          cases v with
          | arr h =>
              refine ⟨setKey doc "changeHistory"
                  (JVal.arr (h ++ [changeEntry description details now])), ?_, ?_⟩
              · simp only [log_change, hch]
              · rw [lookupKey_setKey_ne _ _ _ _ (by decide), hm]
          | null =>
              refine ⟨setKey (setKey doc "changeHistory" (JVal.arr [])) "changeHistory"
                  (JVal.arr [changeEntry description details now]), ?_, ?_⟩
              · simp only [log_change, hch, lookupKey_setKey_self, List.nil_append]
              · rw [lookupKey_setKey_ne _ _ _ _ (by decide),
                    lookupKey_setKey_ne _ _ _ _ (by decide), hm]
          | bool b =>
              refine ⟨setKey (setKey doc "changeHistory" (JVal.arr [])) "changeHistory"
                  (JVal.arr [changeEntry description details now]), ?_, ?_⟩
              · simp only [log_change, hch, lookupKey_setKey_self, List.nil_append]
              · rw [lookupKey_setKey_ne _ _ _ _ (by decide),
                    lookupKey_setKey_ne _ _ _ _ (by decide), hm]
          | num n =>
              refine ⟨setKey (setKey doc "changeHistory" (JVal.arr [])) "changeHistory"
                  (JVal.arr [changeEntry description details now]), ?_, ?_⟩
              · simp only [log_change, hch, lookupKey_setKey_self, List.nil_append]
              · rw [lookupKey_setKey_ne _ _ _ _ (by decide),
                    lookupKey_setKey_ne _ _ _ _ (by decide), hm]
          | str s =>
              refine ⟨setKey (setKey doc "changeHistory" (JVal.arr [])) "changeHistory"
                  (JVal.arr [changeEntry description details now]), ?_, ?_⟩
              · simp only [log_change, hch, lookupKey_setKey_self, List.nil_append]
              · rw [lookupKey_setKey_ne _ _ _ _ (by decide),
                    lookupKey_setKey_ne _ _ _ _ (by decide), hm]
          | obj o =>
              refine ⟨setKey (setKey doc "changeHistory" (JVal.arr [])) "changeHistory"
                  (JVal.arr [changeEntry description details now]), ?_, ?_⟩
              · simp only [log_change, hch, lookupKey_setKey_self, List.nil_append]
              · rw [lookupKey_setKey_ne _ _ _ _ (by decide),
                    lookupKey_setKey_ne _ _ _ _ (by decide), hm]
    rw [hstep, save_no_metadata _ _ hd2]
    exact ⟨rfl, rfl⟩
  · intro name content metadata now
    cases hv : lookupKey doc name with
    | none => exact ⟨by simp [update_section, hv], by simp [update_section, hv]⟩
    | some v =>
        have hnm : name ≠ "metadata" := by
          intro h
          rw [h, hm] at hv
          exact Option.noConfusion hv
        rcases he : updateSectionValue v name content metadata now with ⟨v1, e1⟩
        cases e1 with
        | some e =>
            exact ⟨by simp [update_section, hv, he], by simp [update_section, hv, he]⟩
        | none =>
            have hd2 : lookupKey (setKey doc name (setStatusComplete v1)) "metadata"
                = none := by
              rw [lookupKey_setKey_ne _ _ _ _ hnm, hm]
            exact ⟨by simp [update_section, hv, he, save_no_metadata _ _ hd2, Except.map],
              by simp [update_section, hv, he, save_no_metadata _ _ hd2]⟩
  · intro section_name file_path fs now
    have main : ∀ p, (import_markdown doc section_name (some p) fs now).result
        ≠ Except.ok true ∧
        (import_markdown doc section_name (some p) fs now).persisted = false := by
      intro p
      cases hf : lookupKey fs p with
      | none =>
          exact ⟨by simp [import_markdown, hf], by simp [import_markdown, hf]⟩
      | some content =>
          by_cases hpa : p = "activeContext.md"
          · subst hpa
            have h := importIntoCurrent_no_metadata doc "activeContext" content now hm
            exact ⟨by simpa [import_markdown, hf] using h.1,
              by simpa [import_markdown, hf] using h.2⟩
          · by_cases hpp : p = "progress.md"
            · subst hpp
              have h := importIntoCurrent_no_metadata doc "progress" content now hm
              exact ⟨by simpa [import_markdown, hf, hpa] using h.1,
                by simpa [import_markdown, hf, hpa] using h.2⟩
            · cases hmap : lookupKey import_mapping p with
              | none =>
                  exact ⟨by simp [import_markdown, hf, hpa, hpp, hmap],
                    by simp [import_markdown, hf, hpa, hpp, hmap]⟩
              | some sec =>
                  cases hsec : lookupKey doc sec with
                  | none =>
                      exact ⟨by simp [import_markdown, hf, hpa, hpp, hmap, hsec],
                        by simp [import_markdown, hf, hpa, hpp, hmap, hsec]⟩
                  | some sv =>
                      cases sv with
                      | obj sfields =>
                          have hsnm : sec ≠ "metadata" := by
                            intro h
                            rw [h, hm] at hsec
                            exact Option.noConfusion hsec
                          have hd1 : lookupKey (setKey doc sec (JVal.obj
                              (setKey (setKey sfields "content" (JVal.str content))
                                "status" (JVal.str "Complete")))) "metadata" = none := by
                            rw [lookupKey_setKey_ne _ _ _ _ hsnm, hm]
                          exact ⟨by simp [import_markdown, hf, hpa, hpp, hmap, hsec,
                              save_no_metadata _ _ hd1, Except.map],
                            by simp [import_markdown, hf, hpa, hpp, hmap, hsec,
                              save_no_metadata _ _ hd1]⟩
                      | null =>
                          exact ⟨by simp [import_markdown, hf, hpa, hpp, hmap, hsec],
                            by simp [import_markdown, hf, hpa, hpp, hmap, hsec]⟩
                      | bool b =>
                          exact ⟨by simp [import_markdown, hf, hpa, hpp, hmap, hsec],
                            by simp [import_markdown, hf, hpa, hpp, hmap, hsec]⟩
                      | num n =>
                          exact ⟨by simp [import_markdown, hf, hpa, hpp, hmap, hsec],
                            by simp [import_markdown, hf, hpa, hpp, hmap, hsec]⟩
                      | str s =>
                          exact ⟨by simp [import_markdown, hf, hpa, hpp, hmap, hsec],
                            by simp [import_markdown, hf, hpa, hpp, hmap, hsec]⟩
                      | arr l =>
                          exact ⟨by simp [import_markdown, hf, hpa, hpp, hmap, hsec],
                            by simp [import_markdown, hf, hpa, hpp, hmap, hsec]⟩
    cases file_path with
    | some p => exact main p
    | none =>
        cases hd : derivePath section_name with
        | none =>
            exact ⟨by simp [import_markdown, hd], by simp [import_markdown, hd]⟩
        | some p =>
            have heq : import_markdown doc section_name none fs now
                = import_markdown doc section_name (some p) fs now := by
              simp only [import_markdown, hd]
            rw [heq]
            exact main p

/-- C10 witness: a concrete document without a `metadata` key. -/
theorem c10_witness :
    (∀ description details now,
        (log_change [("projectInfo", JVal.obj [("content", JVal.str "")])]
            description details now).result = Except.error PyErr.keyError ∧
        (log_change [("projectInfo", JVal.obj [("content", JVal.str "")])]
            description details now).persisted = false) ∧
    (∀ name content metadata now,
        (update_section [("projectInfo", JVal.obj [("content", JVal.str "")])]
            name content metadata now).result ≠ Except.ok true ∧
        (update_section [("projectInfo", JVal.obj [("content", JVal.str "")])]
            name content metadata now).persisted = false) ∧
    (∀ section_name file_path fs now,
        (import_markdown [("projectInfo", JVal.obj [("content", JVal.str "")])]
            section_name file_path fs now).result ≠ Except.ok true ∧
        (import_markdown [("projectInfo", JVal.obj [("content", JVal.str "")])]
            section_name file_path fs now).persisted = false) :=
  c10_no_metadata_raises _ rfl

end MemoryBank
